import Mathlib

set_option maxHeartbeats 1000000
set_option maxRecDepth 8000

namespace EarningsPOC

/-! Shallow embedding of the two API route handlers of the repository:
`src/app/api/extract-sections/route.ts` and
`src/app/api/generate-press-release/route.ts`.
Strings are modelled by `String`/`List Char`, raw uploaded bytes by
`List Nat`, the form data and environment by `Option` fields, and the
external collaborators (the JSON parser of the runtime and the two
language-model calls) by function parameters.  Handlers return the HTTP
status, the JSON body, and the list of prompts sent to the model. -/

/-- Whitespace test for the JavaScript regular-expression class used by the
replace call in both route files (ASCII control whitespace, the space, and
the Unicode space separators that the s-class matches). -/
def isWs (c : Char) : Bool :=
  c.toNat = 9 || c.toNat = 10 || c.toNat = 11 || c.toNat = 12 || c.toNat = 13 ||
  c.toNat = 32 || c.toNat = 160 || c.toNat = 5760 ||
  (8192 ≤ c.toNat && c.toNat ≤ 8202) ||
  c.toNat = 8232 || c.toNat = 8233 || c.toNat = 8239 || c.toNat = 8287 ||
  c.toNat = 12288 || c.toNat = 65279

/-- Scan of the replace step of both extractors: every maximal run of
whitespace characters is replaced by one single space.  The flag records
whether the scanner is inside a whitespace run whose space was already
emitted. -/
def collapseWsAux : Bool → List Char → List Char
  | _, [] => []
  | inRun, c :: cs =>
    if isWs c then
      if inRun then collapseWsAux true cs
      else ' ' :: collapseWsAux true cs
    else c :: collapseWsAux false cs

/-- Model of the replace step of both extractors. -/
def collapseWs (l : List Char) : List Char := collapseWsAux false l

/-- Model of the trim step: leading and trailing whitespace removed. -/
def trimWs (l : List Char) : List Char :=
  ((l.dropWhile isWs).reverse.dropWhile isWs).reverse

/-- The whole whitespace-normalization expression of both route files:
collapse whitespace runs to single spaces, then trim. -/
def normalizeWs (l : List Char) : List Char := trimWs (collapseWs l)

/-- String form of the normalization step. -/
def normalizeStr (s : String) : String := String.mk (normalizeWs s.data)

/-- The per-byte branch of the extraction loops: printable ASCII bytes are
kept as characters, byte 10 and byte 13 become a space, all other bytes are
dropped. -/
def filterByte (b : Nat) : List Char :=
  if 32 ≤ b ∧ b ≤ 126 then [Char.ofNat b]
  else if b = 10 ∨ b = 13 then [' ']
  else []

/-- The whole byte loop of both extraction functions. -/
def filterBytes (bs : List Nat) : List Char := (bs.map filterByte).flatten

/-- Byte filtering followed by whitespace normalization: the text produced
by the PDF branch of either route before any length check. -/
def pdfByteExtract (bs : List Nat) : List Char := normalizeWs (filterBytes bs)

/-- Model of extractTextFromPDF of the extract-sections route: byte
filtering, normalization, then the minimum-length check that throws when
fewer than 100 characters survive. -/
def extractTextFromPDF (bs : List Nat) : Except String String :=
  let text := String.mk (pdfByteExtract bs)
  if text.length < 100 then Except.error "Failed to extract text from PDF"
  else Except.ok text

/-- An uploaded file as the handlers see it: name, declared media type, the
raw bytes behind arrayBuffer, and the decoded text behind the text method. -/
structure JFile where
  name : String
  ftype : String
  bytes : List Nat
  text : String

/-- Model of extractTextFromFile of the generate-press-release route: the
byte-filter pass for the application/pdf media type, the raw text
otherwise. -/
def extractTextFromFile (f : JFile) : String :=
  if f.ftype = "application/pdf" then String.mk (pdfByteExtract f.bytes)
  else f.text

/-- The SectionTitle shape of the source: a title and a description. -/
structure SectionTitle where
  title : String
  description : String

/-- A JavaScript value as produced by the runtime JSON parser, together
with the undefined value produced by missing property reads. -/
inductive JsValue where
  | str : String → JsValue
  | num : Int → JsValue
  | boolean : Bool → JsValue
  | null : JsValue
  | undef : JsValue
  | arr : List JsValue → JsValue
  | obj : List (String × JsValue) → JsValue

/-- Null and undefined: the values whose property reads throw a TypeError,
and which render as the empty string inside an array join. -/
def isNullish : JsValue → Bool
  | JsValue.null => true
  | JsValue.undef => true
  | _ => false

/-- Array-join semantics with the comma separator. -/
def joinComma : List String → String
  | [] => ""
  | [a] => a
  | a :: b :: r => a ++ "," ++ joinComma (b :: r)

/-- String conversion of a JavaScript value as performed inside a template
literal. -/
def jsTemplateStr : JsValue → String
  | JsValue.str s => s
  | JsValue.num n => toString n
  | JsValue.boolean b => if b then "true" else "false"
  | JsValue.null => "null"
  | JsValue.undef => "undefined"
  | JsValue.obj _ => "[object Object]"
  | JsValue.arr vs =>
    joinComma (vs.attach.map (fun x => if isNullish x.1 then "" else jsTemplateStr x.1))
decreasing_by
  have h := List.sizeOf_lt_of_mem x.2
  simp only [JsValue.arr.sizeOf_spec]
  omega

/-- Property read on a JavaScript value: on a null or undefined receiver
the read throws a TypeError, on an object the last binding of the key
wins, every other case yields undefined. -/
def jsField (v : JsValue) (k : String) : Except String JsValue :=
  match v with
  | JsValue.null =>
    Except.error ("Cannot read properties of null (reading \x27" ++ k ++ "\x27)")
  | JsValue.undef =>
    Except.error ("Cannot read properties of undefined (reading \x27" ++ k ++ "\x27)")
  | JsValue.obj fields =>
    match fields.reverse.lookup k with
    | some w => Except.ok w
    | none => Except.ok JsValue.undef
  | _ => Except.ok JsValue.undef

/-- Map with the element index, as the callback of the source map call
receives it. -/
def mapIdxFrom {α β : Type*} (f : Nat → α → β) : Nat → List α → List β
  | _, [] => []
  | i, a :: r => f i a :: mapIdxFrom f (i + 1) r

/-- Indexed map whose callback can throw: the elements are visited left to
right and the first thrown error aborts the whole map call. -/
def mapIdxFromE {α β : Type*} (f : Nat → α → Except String β) :
    Nat → List α → Except String (List β)
  | _, [] => Except.ok []
  | i, a :: r =>
    match f i a with
    | Except.error e => Except.error e
    | Except.ok b =>
      match mapIdxFromE f (i + 1) r with
      | Except.error e => Except.error e
      | Except.ok bs => Except.ok (b :: bs)

/-- One enumerated template line of the generation prompt: the title read
comes first and its TypeError, if any, aborts the line. -/
def sectionLine (i : Nat) (v : JsValue) : Except String String :=
  match jsField v "title" with
  | Except.error e => Except.error e
  | Except.ok t =>
    match jsField v "description" with
    | Except.error e => Except.error e
    | Except.ok d =>
      Except.ok (toString (i + 1) ++ ". " ++ jsTemplateStr t ++ ": " ++ jsTemplateStr d)

/-- All enumerated template lines in template order, or the first thrown
TypeError. -/
def mkLines (elems : List JsValue) : Except String (List String) :=
  mapIdxFromE sectionLine 0 elems

/-- Array join with the newline separator, as used on the template lines. -/
def joinNl : List String → String
  | [] => ""
  | [a] => a
  | a :: b :: r => a ++ "\n" ++ joinNl (b :: r)

/-- Character-list test that the first list starts the second. -/
def isPrefixCh : List Char → List Char → Bool
  | [], _ => true
  | _ :: _, [] => false
  | a :: as, b :: bs => a == b && isPrefixCh as bs

/-- Substring test used to model the includes calls of the catch blocks. -/
def containsSub (p : List Char) : List Char → Bool
  | [] => p.isEmpty
  | c :: cs => isPrefixCh p (c :: cs) || containsSub p cs

/-- String.includes of JavaScript. -/
def containsStr (p s : String) : Bool := containsSub p.data s.data

/-- A response body: either an error object, a sections object, or a
pressRelease object. -/
inductive Body where
  | errorMsg : String → Body
  | sections : List SectionTitle → Body
  | pressRelease : String → Body

/-- The observable outcome of one handler invocation: HTTP status, JSON
body, and the prompts sent to the model during the invocation. -/
structure HandlerResult where
  status : Nat
  body : Body
  calls : List String

/-- Falsiness of the credential read and of string form fields: absent or
the empty string. -/
def falsyEnv : Option String → Bool
  | none => true
  | some s => s.isEmpty

/-- The catch-block classification shared by both routes: an error whose
message mentions the API key maps to the configuration message, one whose
message mentions the model maps to the model message, anything else maps to
the generic message of the route.  Every branch carries status 500. -/
def catchBody (generic m : String) : Body :=
  if containsStr "API key" m then Body.errorMsg "OpenAI API configuration error"
  else if containsStr "model" m then Body.errorMsg "AI model error. Please try again."
  else Body.errorMsg generic

def extractGeneric : String :=
  "Failed to extract sections. Please try again or contact support."

def genGeneric : String :=
  "Failed to generate press release. Please try again or contact support."

def ep1 : String :=
  "\n        Analyze this earnings press release text and extract the main section titles/headings that would serve as a template structure for other earnings press releases.\n\n        Focus on identifying:\n        1. Major section headings (like \"Financial Highlights\", \"Business Overview\", \"Outlook\", etc.)\n        2. Standard earnings press release sections\n        3. Key structural elements that are commonly found in earnings announcements\n\n        Provide a brief description for each section explaining what type of content it typically contains.\n\n        If the text appears to be corrupted or unclear, please extract common earnings press release sections based on standard practices.\n\n        Press Release Text:\n        "

def ep2 : String := "\n      "

/-- The extraction prompt with the document text interpolated. -/
def extractPrompt (t : String) : String := ep1 ++ t ++ ep2

def gp1 : String :=
  "\n        You are an expert financial communications writer. Create a professional earnings press release based on the provided 10-Q filing data, following the structure and sections from the template.\n\n        TEMPLATE STRUCTURE TO FOLLOW:\n        "

def gp2 : String :=
  "\n\n        INSTRUCTIONS:\n        1. Create a compelling headline and subheadline\n        2. Follow the template structure provided above\n        3. Extract relevant financial data, metrics, and key information from the 10-Q filing\n        4. Write in a professional, clear, and engaging tone typical of earnings press releases\n        5. Include specific numbers, percentages, and financial metrics where available\n        6. Ensure each section provides meaningful content based on the 10-Q data\n        7. Add appropriate forward-looking statements and disclaimers where needed\n        8. Make sure the press release flows logically and tells a coherent story about the company\x27s performance\n\n        10-Q FILING DATA:\n        "

def gp3 : String :=
  "\n\n        Generate a complete, professional earnings press release following the template structure.\n      "

/-- The generation prompt with the joined template lines and the filing
text interpolated. -/
def genPrompt (joined t : String) : String := gp1 ++ joined ++ gp2 ++ t ++ gp3

/-- Model of the POST handler of the extract-sections route. -/
def extractPOST (pdf : Option JFile) (apiKey : Option String)
    (modelObj : String → Except String (List SectionTitle)) : HandlerResult :=
  match pdf with
  | none => ⟨400, Body.errorMsg "No PDF file provided", []⟩
  | some f =>
    if falsyEnv apiKey then
      ⟨500, Body.errorMsg "OpenAI API key not configured", []⟩
    else
      match extractTextFromPDF f.bytes with
      | Except.error _ =>
        ⟨400, Body.errorMsg "Failed to process PDF file. Please ensure it\x27s a valid PDF with extractable text.", []⟩
      | Except.ok t0 =>
        let pdfText := if t0.length > 10000 then String.mk (t0.data.take 10000) else t0
        let prompt := extractPrompt pdfText
        match modelObj prompt with
        | Except.ok obj => ⟨200, Body.sections obj, [prompt]⟩
        | Except.error m => ⟨500, catchBody extractGeneric m, [prompt]⟩

/-- Model of the POST handler of the generate-press-release route.  The
runtime JSON parser and the model call are parameters; a parse failure is
the thrown-and-caught path of the source, a parsed non-array value is the
path where the map call itself throws, and an array holding a null element
is the path where the property read inside the map callback throws during
prompt construction, so no model call happens; the catch block turns each
of these throws into a 500 body. -/
def generatePOST (tenq : Option JFile) (sectionsJson : Option String)
    (apiKey : Option String)
    (jsonParse : String → Except String JsValue)
    (modelText : String → Except String String) : HandlerResult :=
  match tenq, sectionsJson with
  | some f, some sj =>
    if sj.isEmpty then ⟨400, Body.errorMsg "Missing 10-Q file or sections data", []⟩
    else if falsyEnv apiKey then
      ⟨500, Body.errorMsg "OpenAI API key not configured", []⟩
    else
      match jsonParse sj with
      | Except.error m => ⟨500, catchBody genGeneric m, []⟩
      | Except.ok v =>
        let tenQText := extractTextFromFile f
        let tText :=
          if tenQText.length > 15000 then String.mk (tenQText.data.take 15000) else tenQText
        match v with
        | JsValue.arr elems =>
          match mkLines elems with
          | Except.error m => ⟨500, catchBody genGeneric m, []⟩
          | Except.ok lines =>
            let prompt := genPrompt (joinNl lines) tText
            match modelText prompt with
            | Except.ok txt => ⟨200, Body.pressRelease txt, [prompt]⟩
            | Except.error m => ⟨500, catchBody genGeneric m, [prompt]⟩
        | _ => ⟨500, Body.errorMsg genGeneric, []⟩
  | _, _ => ⟨400, Body.errorMsg "Missing 10-Q file or sections data", []⟩

/-- The JavaScript object a SectionTitle becomes after serialization and
reparsing. -/
def secJs (s : SectionTitle) : JsValue :=
  JsValue.obj [("title", JsValue.str s.title), ("description", JsValue.str s.description)]

def parse0 : String → Except String JsValue := fun _ => Except.error "Unexpected token"

def parseArr0 : String → Except String JsValue :=
  fun _ => Except.ok (JsValue.arr [JsValue.num 5])

def mt0 : String → Except String String := fun _ => Except.ok "PR"

def mo0 : String → Except String (List SectionTitle) := fun _ => Except.ok []

def file150 : JFile := ⟨"a.pdf", "application/pdf", List.replicate 150 65, ""⟩

def fileShort : JFile := ⟨"b.pdf", "application/pdf", [], ""⟩

def fileTxt : JFile := ⟨"c.txt", "text/plain", [], "hello  world "⟩

def sec0 : SectionTitle := ⟨"Financial Highlights", "Key numbers"⟩

def parseSec : String → Except String JsValue :=
  fun _ => Except.ok (JsValue.arr ([sec0].map secJs))

def parseNull : String → Except String JsValue :=
  fun _ => Except.ok (JsValue.arr [JsValue.null])

/-! Lemmas about the whitespace-normalization step. -/

theorem head_dropWhile_ws {l : List Char} {c : Char}
    (h : (l.dropWhile isWs).head? = some c) : isWs c = false := by
  have h' := List.head?_dropWhile_not isWs l
  rw [h] at h'
  simpa using h'

theorem dropWhile_eq_self_of_head {l : List Char}
    (h : ∀ c, l.head? = some c → isWs c = false) : l.dropWhile isWs = l := by
  cases l with
  | nil => rfl
  | cons a r => exact List.dropWhile_cons_of_neg (by simp [h a rfl])

theorem getLast_dropWhile_ws : ∀ (l : List Char) (c : Char),
    (l.dropWhile isWs).getLast? = some c → l.getLast? = some c := by
  intro l
  induction l with
  | nil => intro c h; simp at h
  | cons a r ih =>
    intro c h
    by_cases hp : isWs a
    · rw [List.dropWhile_cons_of_pos hp] at h
      cases r with
      | nil => simp at h
      | cons b s =>
        rw [List.getLast?_cons_cons]
        exact ih c h
    · rwa [List.dropWhile_cons_of_neg hp] at h

theorem collapseWsAux_nil (b : Bool) : collapseWsAux b [] = [] := rfl

theorem collapseWsAux_cons_ws_true {c : Char} {cs : List Char} (h : isWs c = true) :
    collapseWsAux true (c :: cs) = collapseWsAux true cs := by
  simp [collapseWsAux, h]

theorem collapseWsAux_cons_ws_false {c : Char} {cs : List Char} (h : isWs c = true) :
    collapseWsAux false (c :: cs) = ' ' :: collapseWsAux true cs := by
  simp [collapseWsAux, h]

theorem collapseWsAux_cons_neg {b : Bool} {c : Char} {cs : List Char} (h : isWs c = false) :
    collapseWsAux b (c :: cs) = c :: collapseWsAux false cs := by
  simp [collapseWsAux, h]

theorem collapseWsAux_head_true : ∀ (l : List Char) (c : Char),
    (collapseWsAux true l).head? = some c → isWs c = false := by
  intro l
  induction l with
  | nil => intro c h; simp [collapseWsAux_nil] at h
  | cons a r ih =>
    intro c h
    by_cases ha : isWs a = true
    · rw [collapseWsAux_cons_ws_true ha] at h
      exact ih c h
    · have ha' : isWs a = false := by simpa using ha
      rw [collapseWsAux_cons_neg ha'] at h
      simp only [List.head?_cons, Option.some.injEq] at h
      subst h
      exact ha'

theorem collapseWsAux_ws_space : ∀ (l : List Char) (b : Bool) (c : Char),
    c ∈ collapseWsAux b l → isWs c = true → c = ' ' := by
  intro l
  induction l with
  | nil => intro b c hc; simp [collapseWsAux_nil] at hc
  | cons a r ih =>
    intro b c hc hw
    by_cases ha : isWs a = true
    · cases b with
      | true =>
        rw [collapseWsAux_cons_ws_true ha] at hc
        exact ih true c hc hw
      | false =>
        rw [collapseWsAux_cons_ws_false ha] at hc
        rcases List.mem_cons.mp hc with rfl | hc'
        · rfl
        · exact ih true c hc' hw
    · have ha' : isWs a = false := by simpa using ha
      rw [collapseWsAux_cons_neg ha'] at hc
      rcases List.mem_cons.mp hc with rfl | hc'
      · exact absurd hw (by simp [ha'])
      · exact ih false c hc' hw

theorem mem_collapseWsAux : ∀ (l : List Char) (b : Bool) (c : Char),
    c ∈ collapseWsAux b l → c = ' ' ∨ c ∈ l := by
  intro l
  induction l with
  | nil => intro b c hc; simp [collapseWsAux_nil] at hc
  | cons a r ih =>
    intro b c hc
    by_cases ha : isWs a = true
    · cases b with
      | true =>
        rw [collapseWsAux_cons_ws_true ha] at hc
        rcases ih true c hc with h | h
        · exact Or.inl h
        · exact Or.inr (List.mem_cons_of_mem _ h)
      | false =>
        rw [collapseWsAux_cons_ws_false ha] at hc
        rcases List.mem_cons.mp hc with rfl | hc'
        · exact Or.inl rfl
        · rcases ih true c hc' with h | h
          · exact Or.inl h
          · exact Or.inr (List.mem_cons_of_mem _ h)
    · have ha' : isWs a = false := by simpa using ha
      rw [collapseWsAux_cons_neg ha'] at hc
      rcases List.mem_cons.mp hc with rfl | hc'
      · exact Or.inr (List.mem_cons_self _ _)
      · rcases ih false c hc' with h | h
        · exact Or.inl h
        · exact Or.inr (List.mem_cons_of_mem _ h)

theorem collapseWsAux_chain : ∀ (l : List Char) (b : Bool),
    (collapseWsAux b l).Chain' (fun a b => ¬(isWs a = true ∧ isWs b = true)) := by
  intro l
  induction l with
  | nil => intro b; simp [collapseWsAux_nil]
  | cons a r ih =>
    intro b
    by_cases ha : isWs a = true
    · cases b with
      | true =>
        rw [collapseWsAux_cons_ws_true ha]
        exact ih true
      | false =>
        rw [collapseWsAux_cons_ws_false ha]
        refine List.chain'_cons'.mpr ⟨?_, ih true⟩
        intro d hd
        rw [Option.mem_def] at hd
        rintro ⟨-, hwd⟩
        exact absurd hwd (by simp [collapseWsAux_head_true r d hd])
    · have ha' : isWs a = false := by simpa using ha
      rw [collapseWsAux_cons_neg ha']
      refine List.chain'_cons'.mpr ⟨?_, ih false⟩
      intro d _
      rintro ⟨hwa, -⟩
      exact absurd hwa (by simp [ha'])

theorem collapseWsAux_id : ∀ l : List Char,
    (∀ c ∈ l, isWs c = true → c = ' ') →
    l.Chain' (fun a b => ¬(isWs a = true ∧ isWs b = true)) →
    ∀ b : Bool, (b = true → ∀ c, l.head? = some c → isWs c = false) →
    collapseWsAux b l = l := by
  intro l
  induction l with
  | nil => intro _ _ b _; exact collapseWsAux_nil b
  | cons a r ih =>
    intro h1 h2 b hb
    by_cases ha : isWs a = true
    · have ha' : a = ' ' := h1 a (List.mem_cons_self _ _) ha
      cases b with
      | true => exact absurd (hb rfl a rfl) (by simp [ha])
      | false =>
        rw [collapseWsAux_cons_ws_false ha, ha']
        congr 1
        apply ih (fun c hc hw => h1 c (List.mem_cons_of_mem _ hc) hw)
          (List.chain'_cons'.mp h2).2 true
        intro _ c hc
        have hR := (List.chain'_cons'.mp h2).1 c (by simp [hc])
        by_contra hcon
        exact hR ⟨ha, by simpa using hcon⟩
    · have ha' : isWs a = false := by simpa using ha
      rw [collapseWsAux_cons_neg ha']
      congr 1
      exact ih (fun c hc hw => h1 c (List.mem_cons_of_mem _ hc) hw)
        (List.chain'_cons'.mp h2).2 false (by simp)

theorem collapseWs_ws_space (l : List Char) (c : Char) :
    c ∈ collapseWs l → isWs c = true → c = ' ' := collapseWsAux_ws_space l false c

theorem mem_collapseWs (l : List Char) (c : Char) :
    c ∈ collapseWs l → c = ' ' ∨ c ∈ l := mem_collapseWsAux l false c

theorem collapseWs_chain (l : List Char) :
    (collapseWs l).Chain' (fun a b => ¬(isWs a = true ∧ isWs b = true)) :=
  collapseWsAux_chain l false

theorem collapseWs_id (l : List Char)
    (h1 : ∀ c ∈ l, isWs c = true → c = ' ')
    (h2 : l.Chain' (fun a b => ¬(isWs a = true ∧ isWs b = true))) :
    collapseWs l = l :=
  collapseWsAux_id l h1 h2 false (by simp)


theorem mem_trimWs {l : List Char} {c : Char} (h : c ∈ trimWs l) : c ∈ l := by
  unfold trimWs at h
  rw [List.mem_reverse] at h
  have h2 := (List.dropWhile_sublist isWs).subset h
  rw [List.mem_reverse] at h2
  exact (List.dropWhile_sublist isWs).subset h2

theorem trimWs_head {l : List Char} {c : Char} (h : (trimWs l).head? = some c) :
    isWs c = false := by
  unfold trimWs at h
  rw [List.head?_reverse] at h
  have h2 := getLast_dropWhile_ws _ c h
  rw [List.getLast?_reverse] at h2
  exact head_dropWhile_ws h2

theorem trimWs_last {l : List Char} {c : Char} (h : (trimWs l).getLast? = some c) :
    isWs c = false := by
  unfold trimWs at h
  rw [List.getLast?_reverse] at h
  exact head_dropWhile_ws h

theorem trimWs_id {l : List Char}
    (hh : ∀ c, l.head? = some c → isWs c = false)
    (hl : ∀ c, l.getLast? = some c → isWs c = false) : trimWs l = l := by
  unfold trimWs
  rw [dropWhile_eq_self_of_head hh,
    dropWhile_eq_self_of_head (fun c hc => hl c (by rwa [List.head?_reverse] at hc))]
  exact List.reverse_reverse l

theorem chain_dropWhile {R : Char → Char → Prop} {l : List Char}
    (h : l.Chain' R) : (l.dropWhile isWs).Chain' R := by
  obtain ⟨t, ht⟩ := List.dropWhile_suffix (l := l) isWs
  rw [← ht] at h
  exact (List.chain'_append.mp h).2.1

theorem chain_reverse_ws {l : List Char}
    (h : l.Chain' (fun a b => ¬(isWs a = true ∧ isWs b = true))) :
    l.reverse.Chain' (fun a b => ¬(isWs a = true ∧ isWs b = true)) := by
  rw [List.chain'_reverse]
  exact h.imp (fun a b hab => fun h' => hab ⟨h'.2, h'.1⟩)

theorem trimWs_chain {l : List Char}
    (h : l.Chain' (fun a b => ¬(isWs a = true ∧ isWs b = true))) :
    (trimWs l).Chain' (fun a b => ¬(isWs a = true ∧ isWs b = true)) := by
  unfold trimWs
  exact chain_reverse_ws (chain_dropWhile (chain_reverse_ws (chain_dropWhile h)))

theorem normalizeWs_ws_space {l : List Char} {c : Char}
    (hc : c ∈ normalizeWs l) (hw : isWs c = true) : c = ' ' :=
  collapseWs_ws_space l c (mem_trimWs hc) hw

theorem normalizeWs_chain (l : List Char) :
    (normalizeWs l).Chain' (fun a b => ¬(isWs a = true ∧ isWs b = true)) :=
  trimWs_chain (collapseWs_chain l)

theorem normalizeWs_head {l : List Char} {c : Char}
    (h : (normalizeWs l).head? = some c) : isWs c = false := trimWs_head h

theorem normalizeWs_last {l : List Char} {c : Char}
    (h : (normalizeWs l).getLast? = some c) : isWs c = false := trimWs_last h

theorem mem_normalizeWs {l : List Char} {c : Char} (h : c ∈ normalizeWs l) :
    c = ' ' ∨ c ∈ l :=
  mem_collapseWs l c (mem_trimWs h)

theorem normalizeWs_idem (l : List Char) :
    normalizeWs (normalizeWs l) = normalizeWs l := by
  have h1 : collapseWs (normalizeWs l) = normalizeWs l :=
    collapseWs_id _ (fun c hc hw => normalizeWs_ws_space hc hw) (normalizeWs_chain l)
  show trimWs (collapseWs (normalizeWs l)) = normalizeWs l
  rw [h1]
  exact trimWs_id (fun c hc => normalizeWs_head hc) (fun c hc => normalizeWs_last hc)

/-! Lemmas about the byte filter, string appends, joins, and indexed maps. -/

theorem charOfNat_toNat : ∀ b < 127, 32 ≤ b → (Char.ofNat b).toNat = b := by decide

theorem mem_filterBytes {bs : List Nat} {c : Char} (h : c ∈ filterBytes bs) :
    32 ≤ c.toNat ∧ c.toNat ≤ 126 := by
  unfold filterBytes at h
  rw [List.mem_flatten] at h
  obtain ⟨chunk, hchunk, hc⟩ := h
  rw [List.mem_map] at hchunk
  obtain ⟨b, -, rfl⟩ := hchunk
  unfold filterByte at hc
  by_cases h1 : 32 ≤ b ∧ b ≤ 126
  · rw [if_pos h1] at hc
    simp only [List.mem_singleton] at hc
    subst hc
    rw [charOfNat_toNat b (by omega) h1.1]
    exact h1
  · rw [if_neg h1] at hc
    by_cases h2 : b = 10 ∨ b = 13
    · rw [if_pos h2] at hc
      simp only [List.mem_singleton] at hc
      subst hc
      decide
    · rw [if_neg h2] at hc
      simp at hc

theorem string_data_append (a b : String) : (a ++ b).data = a.data ++ b.data := rfl

theorem subSegAppendLeft {l J X : List Char} (h : l <:+: J) : l <:+: X ++ J := by
  obtain ⟨s, t, e⟩ := h
  exact ⟨X ++ s, t, by rw [← e]; simp [List.append_assoc]⟩

theorem subSegAppendRight {l J X : List Char} (h : l <:+: J) : l <:+: J ++ X := by
  obtain ⟨s, t, e⟩ := h
  exact ⟨s, t ++ X, by rw [← e]; simp [List.append_assoc]⟩

theorem subSegSelf (a : List Char) : a <:+: a := ⟨[], [], by simp⟩

theorem subSegOfMemJoin : ∀ (l : List String) (s : String),
    s ∈ l → s.data <:+: (joinNl l).data := by
  intro l
  induction l with
  | nil => intro s hs; simp at hs
  | cons a r ih =>
    intro s hs
    cases r with
    | nil =>
      simp only [List.mem_singleton] at hs
      subst hs
      exact subSegSelf _
    | cons b r' =>
      show s.data <:+: (a ++ "\n" ++ joinNl (b :: r')).data
      rw [string_data_append, string_data_append]
      rcases List.mem_cons.mp hs with rfl | hs'
      · exact subSegAppendRight (subSegAppendRight (subSegSelf _))
      · exact subSegAppendLeft (ih s hs')

theorem mapIdxFrom_length {α β : Type*} (f : Nat → α → β) :
    ∀ (i : Nat) (l : List α), (mapIdxFrom f i l).length = l.length := by
  intro i l
  induction l generalizing i with
  | nil => rfl
  | cons a r ih => simp [mapIdxFrom, ih]

theorem mapIdxFrom_map {α β γ : Type*} (f : Nat → β → γ) (g : α → β) :
    ∀ (i : Nat) (l : List α),
      mapIdxFrom f i (l.map g) = mapIdxFrom (fun j a => f j (g a)) i l := by
  intro i l
  induction l generalizing i with
  | nil => rfl
  | cons a r ih => simp [mapIdxFrom, ih]

theorem mapIdxFrom_get {α β : Type*} (f : Nat → α → β) :
    ∀ (l : List α) (i j : Nat) (h : j < (mapIdxFrom f i l).length)
      (h' : j < l.length),
      (mapIdxFrom f i l).get ⟨j, h⟩ = f (i + j) (l.get ⟨j, h'⟩) := by
  intro l
  induction l with
  | nil => intro i j h h'; simp at h'
  | cons a r ih =>
    intro i j h h'
    cases j with
    | zero => simp [mapIdxFrom]
    | succ j' =>
      have hr : j' < (mapIdxFrom f (i + 1) r).length := by
        rw [mapIdxFrom_length]
        exact Nat.lt_of_succ_lt_succ h'
      have hr' : j' < r.length := Nat.lt_of_succ_lt_succ h'
      show (mapIdxFrom f (i + 1) r).get ⟨j', hr⟩ = _
      rw [ih (i + 1) j' hr hr']
      congr 1
      omega

theorem mapIdxFrom_mem {α β : Type*} (f : Nat → α → β) {i : Nat} {l : List α}
    {j : Nat} (h : j < (mapIdxFrom f i l).length) :
    (mapIdxFrom f i l).get ⟨j, h⟩ ∈ mapIdxFrom f i l := List.get_mem _ _ h

/-! Handler-level helper lemmas. -/

theorem truncate_eq (s : String) (n : Nat) :
    (if s.length > n then String.mk (s.data.take n) else s) = String.mk (s.data.take n) := by
  by_cases h : s.length > n
  · rw [if_pos h]
  · rw [if_neg h]
    have hle : s.data.length ≤ n := Nat.le_of_not_lt h
    rw [List.take_of_length_le hle]

theorem take_cap_id {s : String} {n : Nat} (h : s.length ≤ n) :
    String.mk (s.data.take n) = s := by
  have hle : s.data.length ≤ n := h
  rw [List.take_of_length_le hle]

theorem joined_in_genPrompt (j t : String) : j.data <:+: (genPrompt j t).data := by
  unfold genPrompt
  rw [string_data_append, string_data_append, string_data_append, string_data_append]
  exact subSegAppendRight (subSegAppendRight (subSegAppendRight
    (subSegAppendLeft (subSegSelf _))))

theorem jsTemplateStr_str (s : String) : jsTemplateStr (JsValue.str s) = s := by
  simp [jsTemplateStr]

theorem jsField_ok {v : JsValue} (h : isNullish v = false) (k : String) :
    ∃ w, jsField v k = Except.ok w := by
  cases v with
  | null => simp [isNullish] at h
  | undef => simp [isNullish] at h
  | obj fields =>
    cases h1 : fields.reverse.lookup k with
    | none => exact ⟨JsValue.undef, by simp [jsField, h1]⟩
    | some w => exact ⟨w, by simp [jsField, h1]⟩
  | str s => exact ⟨_, rfl⟩
  | num n => exact ⟨_, rfl⟩
  | boolean b => exact ⟨_, rfl⟩
  | arr vs => exact ⟨_, rfl⟩

theorem sectionLine_ok {v : JsValue} (h : isNullish v = false) (i : Nat) :
    ∃ s, sectionLine i v = Except.ok s := by
  obtain ⟨t, ht⟩ := jsField_ok h "title"
  obtain ⟨d, hd⟩ := jsField_ok h "description"
  exact ⟨toString (i + 1) ++ ". " ++ jsTemplateStr t ++ ": " ++ jsTemplateStr d,
    by simp only [sectionLine, ht, hd]⟩

theorem mkLinesAux_ok : ∀ (elems : List JsValue) (i : Nat),
    (∀ e ∈ elems, isNullish e = false) →
    ∃ lines, mapIdxFromE sectionLine i elems = Except.ok lines := by
  intro elems
  induction elems with
  | nil => intro i _; exact ⟨[], rfl⟩
  | cons a r ih =>
    intro i h
    obtain ⟨s, hs⟩ := sectionLine_ok (h a (List.mem_cons_self _ _)) i
    obtain ⟨ls, hls⟩ := ih (i + 1) (fun e he => h e (List.mem_cons_of_mem _ he))
    exact ⟨s :: ls, by simp [mapIdxFromE, hs, hls]⟩

theorem mkLinesAux_err : ∀ (elems : List JsValue) (i : Nat),
    (∃ e ∈ elems, isNullish e = true) →
    ∃ m, mapIdxFromE sectionLine i elems = Except.error m := by
  intro elems
  induction elems with
  | nil => intro i h; obtain ⟨e, he, -⟩ := h; simp at he
  | cons a r ih =>
    intro i h
    by_cases ha : isNullish a = true
    · have herr : ∃ m, sectionLine i a = Except.error m := by
        cases a with
        | null => exact ⟨_, rfl⟩
        | undef => exact ⟨_, rfl⟩
        | str s => simp [isNullish] at ha
        | num n => simp [isNullish] at ha
        | boolean b => simp [isNullish] at ha
        | arr vs => simp [isNullish] at ha
        | obj fs => simp [isNullish] at ha
      obtain ⟨m, hm⟩ := herr
      exact ⟨m, by simp [mapIdxFromE, hm]⟩
    · have ha' : isNullish a = false := by simpa using ha
      obtain ⟨s, hs⟩ := sectionLine_ok ha' i
      obtain ⟨e, he, hne⟩ := h
      rcases List.mem_cons.mp he with rfl | he'
      · exact absurd hne (by simp [ha'])
      · obtain ⟨m, hm⟩ := ih (i + 1) ⟨e, he', hne⟩
        exact ⟨m, by simp [mapIdxFromE, hs, hm]⟩

theorem mkLines_secJs : ∀ (secs : List SectionTitle) (i : Nat),
    mapIdxFromE sectionLine i (secs.map secJs) =
      Except.ok (mapIdxFrom
        (fun j a => toString (j + 1) ++ ". " ++ a.title ++ ": " ++ a.description)
        i secs) := by
  intro secs
  induction secs with
  | nil => intro i; rfl
  | cons a r ih =>
    intro i
    have h1 : sectionLine i (secJs a) = Except.ok (toString (i + 1) ++ ". " ++
        jsTemplateStr (JsValue.str a.title) ++ ": " ++
        jsTemplateStr (JsValue.str a.description)) := rfl
    simp only [List.map_cons, mapIdxFromE, h1, ih (i + 1), jsTemplateStr_str, mapIdxFrom]

theorem mkLines_secJs_ok (secs : List SectionTitle) :
    mkLines (secs.map secJs) =
      Except.ok (mapIdxFrom
        (fun i s => toString (i + 1) ++ ". " ++ s.title ++ ": " ++ s.description)
        0 secs) :=
  mkLines_secJs secs 0

theorem generatePOST_arr (f : JFile) (sj : String) (key : Option String)
    (elems : List JsValue) (lines : List String)
    (parse : String → Except String JsValue) (mt : String → Except String String)
    (hsj : sj.isEmpty = false) (hkey : falsyEnv key = false)
    (hp : parse sj = Except.ok (JsValue.arr elems))
    (hl : mkLines elems = Except.ok lines) :
    ((generatePOST (some f) (some sj) key parse mt).calls =
      [genPrompt (joinNl lines)
        (if (extractTextFromFile f).length > 15000
          then String.mk ((extractTextFromFile f).data.take 15000)
          else extractTextFromFile f)]) ∧
    (generatePOST (some f) (some sj) key parse mt).status ≠ 400 := by
  simp only [generatePOST, hp, hsj, hkey, hl, Bool.false_eq_true, if_false]
  split
  · exact ⟨rfl, by show (200 : Nat) ≠ 400; decide⟩
  · exact ⟨rfl, by show (500 : Nat) ≠ 400; decide⟩

theorem generatePOST_arr_err (f : JFile) (sj : String) (key : Option String)
    (elems : List JsValue) (m : String)
    (parse : String → Except String JsValue) (mt : String → Except String String)
    (hsj : sj.isEmpty = false) (hkey : falsyEnv key = false)
    (hp : parse sj = Except.ok (JsValue.arr elems))
    (hm : mkLines elems = Except.error m) :
    generatePOST (some f) (some sj) key parse mt =
      ⟨500, catchBody genGeneric m, []⟩ := by
  simp only [generatePOST, hp, hsj, hkey, hm, Bool.false_eq_true, if_false]

/-! The claims. -/

/-- C10: the whitespace-normalization step of the text extractor (collapse
every run of whitespace to a single space, then trim) is idempotent: for
every string, applying the normalization twice yields the same result as
applying it once. -/
theorem c10_normalize_idempotent (s : String) :
    normalizeStr (normalizeStr s) = normalizeStr s :=
  congrArg String.mk (normalizeWs_idem s.data)

/-- C2: for every input byte sequence, the byte-filtering text extraction
shared by both routes produces a string containing only printable ASCII
characters (codes 32 to 126) and single spaces: no two consecutive
characters are spaces and the first and last characters are not spaces. -/
theorem c2_extractor_output_clean (bs : List Nat) :
    (∀ c ∈ pdfByteExtract bs, 32 ≤ c.toNat ∧ c.toNat ≤ 126) ∧
    (pdfByteExtract bs).Chain' (fun a b => ¬(a = ' ' ∧ b = ' ')) ∧
    (pdfByteExtract bs).head? ≠ some ' ' ∧
    (pdfByteExtract bs).getLast? ≠ some ' ' := by
  refine ⟨?_, ?_, ?_, ?_⟩
  · intro c hc
    rcases mem_normalizeWs hc with rfl | hmem
    · decide
    · exact mem_filterBytes hmem
  · exact (normalizeWs_chain (filterBytes bs)).imp (fun a b hab => by
      rintro ⟨rfl, rfl⟩
      exact hab ⟨by decide, by decide⟩)
  · intro h
    exact absurd (normalizeWs_head (l := filterBytes bs) h) (by decide)
  · intro h
    exact absurd (normalizeWs_last (l := filterBytes bs) h) (by decide)

/-- C2 witness: evaluation of the claim on the concrete byte sequence
65, 10, 66. -/
theorem c2_extractor_output_clean_w : 32 ≤ ('A').toNat ∧ ('A').toNat ≤ 126 :=
  (c2_extractor_output_clean [65, 10, 66]).1 'A' (by decide)

/-- C7: for every uploaded file whose declared media type is not
application/pdf, the generation route returns the file text verbatim: no
byte filtering, whitespace collapsing, or trimming is applied. -/
theorem c7_non_pdf_verbatim (f : JFile) (h : f.ftype ≠ "application/pdf") :
    extractTextFromFile f = f.text := by
  unfold extractTextFromFile
  rw [if_neg h]

/-- C7 witness: a plain-text file keeps its double space and trailing
space. -/
theorem c7_non_pdf_verbatim_w : extractTextFromFile fileTxt = "hello  world " :=
  c7_non_pdf_verbatim fileTxt (by decide)

/-- C5: with the required form fields present and the OPENAI_API_KEY
environment value absent, both endpoints return 500 with the
configuration-specific message and never call the model. -/
theorem c5_missing_key_500 :
    (∀ (f : JFile) (mo : String → Except String (List SectionTitle)),
      extractPOST (some f) none mo =
        ⟨500, Body.errorMsg "OpenAI API key not configured", []⟩) ∧
    (∀ (f : JFile) (sj : String) (parse : String → Except String JsValue)
      (mt : String → Except String String), sj.isEmpty = false →
      generatePOST (some f) (some sj) none parse mt =
        ⟨500, Body.errorMsg "OpenAI API key not configured", []⟩) := by
  constructor
  · intro f mo
    rfl
  · intro f sj parse mt hsj
    simp [generatePOST, hsj, falsyEnv]

/-- C5 witness: evaluation at a concrete generation request with no
credential configured. -/
theorem c5_missing_key_500_w :
    generatePOST (some fileTxt) (some "[]") none parse0 mt0 =
      ⟨500, Body.errorMsg "OpenAI API key not configured", []⟩ :=
  c5_missing_key_500.2 fileTxt "[]" parse0 mt0 (by decide)

/-- C8: for every schema-conforming structured model response, the 200
response body of the template-extraction endpoint is exactly the sections
array of that response, element order and contents unchanged. -/
theorem c8_sections_passthrough (f : JFile) (key : Option String)
    (secs : List SectionTitle) (t : String)
    (hkey : falsyEnv key = false)
    (hex : extractTextFromPDF f.bytes = Except.ok t) :
    (extractPOST (some f) key (fun _ => Except.ok secs)).status = 200 ∧
    (extractPOST (some f) key (fun _ => Except.ok secs)).body = Body.sections secs := by
  constructor <;> simp [extractPOST, hkey, hex]

/-- C8 witness: evaluation on a concrete 150-byte document and the stub
response holding one section. -/
theorem c8_sections_passthrough_w :
    (extractPOST (some file150) (some "k") (fun _ => Except.ok [sec0])).body =
      Body.sections [sec0] :=
  (c8_sections_passthrough file150 (some "k") [sec0]
    (String.mk (pdfByteExtract file150.bytes)) (by decide) rfl).2

/-- C1 counterexample: a generation request whose sections field is
present but fails to parse is answered with status 500, not the 400 the
claim states. -/
theorem c1_parse_failure_counterexample :
    (generatePOST (some fileTxt) (some "notjson") (some "k") parse0 mt0).status = 500 ∧
    ¬((generatePOST (some fileTxt) (some "notjson") (some "k") parse0 mt0).status = 400) := by
  constructor
  · rfl
  · decide

/-- C1 (amended): a missing tenq field or a missing or empty sections
field yields 400 with an error body on the generation endpoint, and a
missing pdf field yields 400 with an error body on the template-extraction
endpoint; a sections field that parses unsuccessfully, however, yields
500, not 400. -/
theorem c1_amended_field_errors :
    (∀ (tq : Option JFile) (sj : Option String) (key : Option String)
      (parse : String → Except String JsValue) (mt : String → Except String String),
      (tq = none ∨ sj = none ∨ sj = some "") →
      generatePOST tq sj key parse mt =
        ⟨400, Body.errorMsg "Missing 10-Q file or sections data", []⟩) ∧
    (∀ (key : Option String) (mo : String → Except String (List SectionTitle)),
      extractPOST none key mo = ⟨400, Body.errorMsg "No PDF file provided", []⟩) ∧
    (∀ (f : JFile) (sj : String) (key : Option String) (m : String)
      (parse : String → Except String JsValue) (mt : String → Except String String),
      sj.isEmpty = false → falsyEnv key = false → parse sj = Except.error m →
      (generatePOST (some f) (some sj) key parse mt).status = 500) := by
  refine ⟨?_, ?_, ?_⟩
  · rintro tq sj key parse mt (rfl | rfl | rfl)
    · cases sj <;> rfl
    · cases tq <;> rfl
    · cases tq <;> rfl
  · intro key mo
    rfl
  · intro f sj key m parse mt hsj hkey hp
    simp [generatePOST, hsj, hkey, hp]

/-- C1 witness: evaluation of the amended claim on a request with both
generation fields missing. -/
theorem c1_amended_field_errors_w :
    generatePOST none none none parse0 mt0 =
      ⟨400, Body.errorMsg "Missing 10-Q file or sections data", []⟩ :=
  c1_amended_field_errors.1 none none none parse0 mt0 (Or.inl rfl)

/-- C3: a document whose normalized extracted text is shorter than 100
characters makes the template-extraction endpoint answer 400 with the
extraction error body and no model call, while the generation endpoint
has no minimum-length check: with valid fields and a parsed template
array whose entries are not null (so that no property read throws), it
always performs exactly one model call, whatever the extracted length. -/
theorem c3_min_length_gate :
    (∀ (f : JFile) (key : Option String) (mo : String → Except String (List SectionTitle)),
      falsyEnv key = false → (pdfByteExtract f.bytes).length < 100 →
      extractPOST (some f) key mo =
        ⟨400, Body.errorMsg "Failed to process PDF file. Please ensure it\x27s a valid PDF with extractable text.", []⟩) ∧
    (∀ (f : JFile) (sj : String) (key : Option String) (elems : List JsValue)
      (parse : String → Except String JsValue) (mt : String → Except String String),
      sj.isEmpty = false → falsyEnv key = false →
      parse sj = Except.ok (JsValue.arr elems) →
      (∀ e ∈ elems, isNullish e = false) →
      (generatePOST (some f) (some sj) key parse mt).calls.length = 1) := by
  constructor
  · intro f key mo hkey hlen
    have hex : extractTextFromPDF f.bytes =
        Except.error "Failed to extract text from PDF" := by
      show (if (String.mk (pdfByteExtract f.bytes)).length < 100
          then (Except.error "Failed to extract text from PDF" : Except String String)
          else Except.ok (String.mk (pdfByteExtract f.bytes))) =
        Except.error "Failed to extract text from PDF"
      exact if_pos hlen
    simp [extractPOST, hkey, hex]
  · intro f sj key elems parse mt hsj hkey hp hnn
    obtain ⟨lines, hl⟩ := mkLinesAux_ok elems 0 hnn
    rw [(generatePOST_arr f sj key elems lines parse mt hsj hkey hp hl).1]
    rfl

/-- C3 witness: evaluation on a PDF whose byte payload is empty, hence
whose normalized text has length 0. -/
theorem c3_min_length_gate_w :
    extractPOST (some fileShort) (some "k") mo0 =
      ⟨400, Body.errorMsg "Failed to process PDF file. Please ensure it\x27s a valid PDF with extractable text.", []⟩ :=
  c3_min_length_gate.1 fileShort (some "k") mo0 (by decide) (by decide)

/-- C4: the document text embedded in the model prompt is exactly the
cap-length prefix of the normalized text, 10000 characters for template
extraction and 15000 for generation; text whose length is at or below the
cap is passed onward unchanged.  On the generation side the prompt exists
whenever the template lines were built without a thrown property read. -/
theorem c4_truncation_cap :
    (∀ (f : JFile) (key : Option String)
      (mo : String → Except String (List SectionTitle)) (t : String),
      falsyEnv key = false → extractTextFromPDF f.bytes = Except.ok t →
      (extractPOST (some f) key mo).calls =
        [extractPrompt (String.mk (t.data.take 10000))] ∧
      (t.length ≤ 10000 → String.mk (t.data.take 10000) = t)) ∧
    (∀ (f : JFile) (sj : String) (key : Option String) (elems : List JsValue)
      (lines : List String)
      (parse : String → Except String JsValue) (mt : String → Except String String),
      sj.isEmpty = false → falsyEnv key = false →
      parse sj = Except.ok (JsValue.arr elems) →
      mkLines elems = Except.ok lines →
      (generatePOST (some f) (some sj) key parse mt).calls =
        [genPrompt (joinNl lines)
          (String.mk ((extractTextFromFile f).data.take 15000))] ∧
      ((extractTextFromFile f).length ≤ 15000 →
        String.mk ((extractTextFromFile f).data.take 15000) = extractTextFromFile f)) := by
  constructor
  · intro f key mo t hkey hex
    refine ⟨?_, fun hlen => take_cap_id hlen⟩
    have := truncate_eq t 10000
    simp [extractPOST, hkey, hex]
    rcases hmo : mo (extractPrompt (if t.length > 10000
        then String.mk (t.data.take 10000) else t)) with obj | m <;>
      simp [hmo, truncate_eq t 10000]
  · intro f sj key elems lines parse mt hsj hkey hp hl
    refine ⟨?_, fun hlen => take_cap_id hlen⟩
    rw [(generatePOST_arr f sj key elems lines parse mt hsj hkey hp hl).1,
      truncate_eq (extractTextFromFile f) 15000]

/-- C4 witness: evaluation on the concrete 150-byte document. -/
theorem c4_truncation_cap_w :
    (extractPOST (some file150) (some "k") mo0).calls =
      [extractPrompt (String.mk ((String.mk (pdfByteExtract file150.bytes)).data.take 10000))] :=
  (c4_truncation_cap.1 file150 (some "k") mo0
    (String.mk (pdfByteExtract file150.bytes)) (by decide) rfl).1

/-- C9 counterexample: at the reachable input whose sections field parses
to an array holding null, the property read inside the map callback throws
before the prompt is built, so the generation endpoint performs no model
call at all and answers the generic 500, refuting the claim that every
parsed array proceeds to the model call. -/
theorem c9_null_counterexample :
    (generatePOST (some fileTxt) (some "[null]") (some "k") parseNull mt0).calls = [] ∧
    (generatePOST (some fileTxt) (some "[null]") (some "k") parseNull mt0).status = 500 := by
  constructor <;> rfl

/-- C9 (amended): after a successful parse of the sections field the
generation endpoint applies no shape validation: for every parsed array
whose elements are not null, whatever their shape, it proceeds to exactly
one model call and never answers with a 400 input-validation error; a
parsed array holding a null element instead throws at the property read,
performs no model call, and yields the generic 500 response. -/
theorem c9_no_shape_validation :
    (∀ (f : JFile) (sj : String) (key : Option String) (elems : List JsValue)
      (parse : String → Except String JsValue) (mt : String → Except String String),
      sj.isEmpty = false → falsyEnv key = false →
      parse sj = Except.ok (JsValue.arr elems) →
      (∀ e ∈ elems, isNullish e = false) →
      (generatePOST (some f) (some sj) key parse mt).calls.length = 1 ∧
      (generatePOST (some f) (some sj) key parse mt).status ≠ 400) ∧
    (∀ (f : JFile) (sj : String) (key : Option String) (elems : List JsValue)
      (parse : String → Except String JsValue) (mt : String → Except String String),
      sj.isEmpty = false → falsyEnv key = false →
      parse sj = Except.ok (JsValue.arr elems) →
      (∃ e ∈ elems, isNullish e = true) →
      (generatePOST (some f) (some sj) key parse mt).calls = [] ∧
      (generatePOST (some f) (some sj) key parse mt).status = 500) := by
  constructor
  · intro f sj key elems parse mt hsj hkey hp hnn
    obtain ⟨lines, hl⟩ := mkLinesAux_ok elems 0 hnn
    obtain ⟨hcalls, hstat⟩ := generatePOST_arr f sj key elems lines parse mt hsj hkey hp hl
    refine ⟨?_, hstat⟩
    rw [hcalls]
    rfl
  · intro f sj key elems parse mt hsj hkey hp hnull
    obtain ⟨m, hm⟩ := mkLinesAux_err elems 0 hnull
    rw [generatePOST_arr_err f sj key elems m parse mt hsj hkey hp hm]
    exact ⟨rfl, rfl⟩

/-- C9 witness: an array of bare numbers, which matches no part of the
title and description shape, still reaches the model call. -/
theorem c9_no_shape_validation_w :
    (generatePOST (some fileTxt) (some "[5]") (some "k") parseArr0 mt0).calls.length = 1 :=
  (c9_no_shape_validation.1 fileTxt "[5]" (some "k") [JsValue.num 5] parseArr0 mt0
    (by decide) (by decide) rfl
    (fun e he => by rw [List.mem_singleton] at he; subst he; rfl)).1

/-- C6: for every template the generation endpoint accepts, the prompt
sent to the model contains, for every entry, a line of the form index.
title: description where index is the 1-based position of the entry, and
the joined lines appear in the original template order. -/
theorem c6_prompt_enumeration (f : JFile) (sj : String) (key : Option String)
    (parse : String → Except String JsValue) (mt : String → Except String String)
    (secs : List SectionTitle)
    (hsj : sj.isEmpty = false) (hkey : falsyEnv key = false)
    (hp : parse sj = Except.ok (JsValue.arr (secs.map secJs))) :
    ∃ prompt, (generatePOST (some f) (some sj) key parse mt).calls = [prompt] ∧
      (joinNl (mapIdxFrom
        (fun i s => toString (i + 1) ++ ". " ++ s.title ++ ": " ++ s.description)
        0 secs)).data <:+: prompt.data ∧
      ∀ i (h : i < secs.length),
        (toString (i + 1) ++ ". " ++ (secs.get ⟨i, h⟩).title ++ ": " ++
          (secs.get ⟨i, h⟩).description).data <:+: prompt.data := by
  obtain ⟨hcalls, -⟩ := generatePOST_arr f sj key (secs.map secJs)
    (mapIdxFrom (fun i s => toString (i + 1) ++ ". " ++ s.title ++ ": " ++ s.description)
      0 secs)
    parse mt hsj hkey hp (mkLines_secJs_ok secs)
  refine ⟨_, hcalls, ?_, ?_⟩
  · exact joined_in_genPrompt _ _
  · intro i h
    have hlen : i < (mapIdxFrom
        (fun i s => toString (i + 1) ++ ". " ++ s.title ++ ": " ++ s.description)
        0 secs).length := by
      rw [mapIdxFrom_length]
      exact h
    have hget := mapIdxFrom_get
      (fun i s => toString (i + 1) ++ ". " ++ s.title ++ ": " ++ s.description)
      secs 0 i hlen h
    rw [Nat.zero_add] at hget
    have hmem : (toString (i + 1) ++ ". " ++ (secs.get ⟨i, h⟩).title ++ ": " ++
        (secs.get ⟨i, h⟩).description) ∈
        mapIdxFrom (fun i s => toString (i + 1) ++ ". " ++ s.title ++ ": " ++ s.description)
          0 secs := by
      rw [← hget]
      exact List.get_mem _ _ _
    exact (subSegOfMemJoin _ _ hmem).trans (joined_in_genPrompt _ _)

/-- C6 witness: evaluation on the one-entry template holding sec0. -/
theorem c6_prompt_enumeration_w :
    ∃ prompt,
      (generatePOST (some fileTxt) (some "x") (some "k") parseSec mt0).calls = [prompt] ∧
      (joinNl (mapIdxFrom
        (fun i s => toString (i + 1) ++ ". " ++ s.title ++ ": " ++ s.description)
        0 [sec0])).data <:+: prompt.data ∧
      ∀ i (h : i < ([sec0] : List SectionTitle).length),
        (toString (i + 1) ++ ". " ++ (([sec0] : List SectionTitle).get ⟨i, h⟩).title ++
          ": " ++ (([sec0] : List SectionTitle).get ⟨i, h⟩).description).data <:+:
            prompt.data :=
  c6_prompt_enumeration fileTxt "x" (some "k") parseSec mt0 [sec0]
    (by decide) (by decide) rfl

end EarningsPOC
